import Mathlib

/-! Shallow embedding of the raft engine (package raftengine) of the
repository linka-cloud/raft. The engine state, the Ready-processing
operations (publishSnapshot, publishSnapshotFile, publishCommitted,
publishReplicate, publishConfChange, publishAppliedIndices), the snapshot
orchestration (createSnapshot and its background task, forceSnapshot),
the staging-member promotion scan and the started-flag guards of the
public operations are translated from the Go source; calls into the
external collaborators (state machine, storage, membership pool, protocol
core, message bus) are recorded as events and their results are supplied
by a World record of oracles. Machine integers (log indices, node ids,
change ids) are modelled as Nat: the Go code never relies on uint64
wrap-around for them. -/

namespace RaftEngine

/-- Errors of the engine. The named constructors are the sentinel errors
declared at the top of the engine source; external carries an error value
produced by a collaborator (state machine, storage, pool) or by protobuf
unmarshalling. -/
inductive Err where
  | errStopped : Err
  | errNoLeader : Err
  | errAlreadySnapshotting : Err
  | errFailedPrecondition : Err
  | snapshotOutOfDate : Nat → Nat → Err
  | external : Nat → Err
  deriving DecidableEq, Repr

/-- etcd raftpb.ConfState: voters, learners and outgoing voters. -/
structure ConfState where
  voters : List Nat
  learners : List Nat
  votersOutgoing : List Nat
  deriving DecidableEq, Repr

/-- etcd raftpb.SnapshotMetadata: index, term and the ConfState the
snapshot was taken under. -/
structure SnapMetadata where
  index : Nat
  term : Nat
  confState : ConfState
  deriving DecidableEq, Repr

/-- etcd raftpb.Snapshot (the data payload abstracted as bytes). -/
structure Snapshot where
  metadata : SnapMetadata
  data : List Nat
  deriving DecidableEq, Repr

/-- raft.IsEmptySnap: a snapshot is empty iff its metadata index is 0. -/
def IsEmptySnap (s : Snapshot) : Bool :=
  s.metadata.index == 0

/-- internal raftpb member types used by the engine. -/
inductive MemberType where
  | VoterMember : MemberType
  | RemovedMember : MemberType
  | LearnerMember : MemberType
  | StagingMember : MemberType
  deriving DecidableEq, Repr

/-- internal raftpb.Member record (id and type; the address does not
matter to any claim). -/
structure Member where
  id : Nat
  type : MemberType
  deriving DecidableEq, Repr

/-- A membership-pool member as seen by promotions: its Raw() record
(id, type) together with its IsActive() report. -/
structure PoolMember where
  id : Nat
  type : MemberType
  isActive : Bool
  deriving DecidableEq, Repr

/-- storage.Snapshot: the raw etcd snapshot, the pool member list and the
application data stream of a snapshot file. -/
structure SnapFile where
  raw : Snapshot
  members : List Member
  data : List Nat
  deriving DecidableEq, Repr

/-- EntryType of etcd raftpb. -/
inductive EntryType where
  | EntryNormal : EntryType
  | EntryConfChange : EntryType
  | EntryConfChangeV2 : EntryType
  deriving DecidableEq, Repr

/-- etcd raftpb.Entry: type, index and data bytes. -/
structure Entry where
  type : EntryType
  index : Nat
  data : List Nat
  deriving DecidableEq, Repr

/-- internal raftpb.Replicate: a proposal payload carrying a change id
and the user data. -/
structure Replicate where
  CID : Nat
  Data : List Nat
  deriving DecidableEq, Repr

/-- etcd raftpb.ConfChangeType. -/
inductive ConfChangeType where
  | ConfChangeAddNode : ConfChangeType
  | ConfChangeRemoveNode : ConfChangeType
  | ConfChangeUpdateNode : ConfChangeType
  | ConfChangeAddLearnerNode : ConfChangeType
  deriving DecidableEq, Repr

/-- etcd raftpb.ConfChange: id, type, node id and the marshalled member
in context. -/
structure ConfChange where
  id : Nat
  type : ConfChangeType
  nodeID : Nat
  context : List Nat
  deriving DecidableEq, Repr

/-- The message types the engine dispatches on. -/
inductive MsgType where
  | MsgSnap : MsgType
  | MsgApp : MsgType
  | MsgProp : MsgType
  | MsgOther : MsgType
  deriving DecidableEq, Repr

/-- etcd raftpb.Message restricted to the fields forceSnapshot reads:
type, destination and the carried snapshot. -/
structure Message where
  type : MsgType
  To : Nat
  snapshot : Snapshot
  deriving DecidableEq, Repr

/-- The engine fields the claims are about: the two atomic indices, the
snapshotting and started flags, and the stored conf state. -/
structure EngineState where
  appliedIndex : Nat
  snapIndex : Nat
  snapshoting : Bool
  started : Bool
  confState : Option ConfState
  deriving DecidableEq, Repr

/-- Observable calls into the collaborators, in program order. broadcast
records msgbus.Broadcast(id, value) where the value is none for a nil
(success) value and some e for an error. enterBody marks a guarded public
operation entering its body (which interacts with the protocol core);
spawnSnapshotTask marks createSnapshot spawning its background goroutine;
createSnapshotCall marks forceSnapshot invoking createSnapshot. -/
inductive Event where
  | broadcast : Nat → Option Err → Event
  | fsmApply : List Nat → Event
  | fsmSnapshotCall : Event
  | fsmRestoreCall : Event
  | poolRestore : Event
  | poolAdd : Nat → Event
  | poolUpdate : Nat → Event
  | scheduleRemove : Nat → Event
  | nodeApplyConfChange : ConfChange → Event
  | storageApplySnapshot : Nat → Event
  | storageSaveSnapshot : Nat → Event
  | snapshotterRead : Nat → Nat → Event
  | storageCreateSnapshot : Nat → Event
  | snapshotterWrite : Event
  | compact : Nat → Event
  | reportSnapshotFailure : Nat → Event
  | createSnapshotCall : Event
  | spawnSnapshotTask : Event
  | nodeForgetLeaderCall : Event
  | enterBody : Event
  deriving DecidableEq, Repr

/-- Results of the collaborator calls the engine makes, supplied as
oracles: protobuf unmarshalling, the application state machine, storage,
the membership pool and the protocol core. An Option Err result is none
on success; Except carries the decoded value on success.
unmarshalReplicate models the generated gogo-protobuf Unmarshal, which
assigns fields of the receiver in place while parsing: it returns the
resulting struct state (starting from the zero value, fully populated on
success, partially populated on failure) together with the error, so a
failed unmarshal may still leave a nonzero CID when the CID field was
parsed before the failure. -/
structure World where
  unmarshalReplicate : List Nat → Replicate × Option Err
  unmarshalConfChange : List Nat → Except Err ConfChange
  unmarshalMember : List Nat → Except Err Member
  fsmApply : List Nat → Option Err
  fsmRestore : Option Err
  fsmSnapshot : Option Err
  storageApplySnapshot : Option Err
  storageSaveSnapshot : Option Err
  snapshotterRead : Nat → Nat → Except Err SnapFile
  storageCreateSnapshot : Option Err
  snapshotterWrite : Option Err
  storageCompact : Option Err
  poolAdd : Member → Option Err
  poolUpdate : Member → Option Err
  applyConfChange : ConfChange → ConfState
  opBody : Option Err
  nodeForgetLeader : Option Err

/-- engine.publishSnapshotFile: apply the snapshot to storage, restore the
pool members, restore the application state machine, then store the
snapshot's ConfState and set snapIndex and then appliedIndex to the
snapshot's index. Error paths return before any index is written. -/
def publishSnapshotFile (st : EngineState) (w : World) (sf : SnapFile) :
    EngineState × List Event × Option Err :=
  let snap := sf.raw
  match w.storageApplySnapshot with
  | some e => (st, [Event.storageApplySnapshot snap.metadata.index], some e)
  | none =>
    match w.fsmRestore with
    | some e =>
      (st, [Event.storageApplySnapshot snap.metadata.index, Event.poolRestore,
            Event.fsmRestoreCall], some e)
    | none =>
      ({ st with
          confState := some snap.metadata.confState,
          snapIndex := snap.metadata.index,
          appliedIndex := snap.metadata.index },
       [Event.storageApplySnapshot snap.metadata.index, Event.poolRestore,
        Event.fsmRestoreCall], none)

/-- The successive values of the pair (appliedIndex, snapIndex) after each
of the two atomic index writes on the success path of publishSnapshotFile:
the source sets snapIndex to the snapshot index first and appliedIndex
second, so the pair after the first write is (old applied, snap index). -/
def publishSnapshotFileIndexStates (st : EngineState) (sf : SnapFile) :
    List (Nat × Nat) :=
  [(st.appliedIndex, sf.raw.metadata.index),
   (sf.raw.metadata.index, sf.raw.metadata.index)]

/-- engine.publishSnapshot: a no-op on an empty snapshot; an error when the
snapshot index does not exceed appliedIndex; otherwise save the snapshot,
read the snapshot file back and hand it to publishSnapshotFile. -/
def publishSnapshot (st : EngineState) (w : World) (snap : Snapshot) :
    EngineState × List Event × Option Err :=
  if IsEmptySnap snap then (st, [], none)
  else if snap.metadata.index ≤ st.appliedIndex then
    (st, [], some (Err.snapshotOutOfDate snap.metadata.index st.appliedIndex))
  else
    match w.storageSaveSnapshot with
    | some e => (st, [Event.storageSaveSnapshot snap.metadata.index], some e)
    | none =>
      match w.snapshotterRead snap.metadata.term snap.metadata.index with
      | Except.error e =>
        (st, [Event.storageSaveSnapshot snap.metadata.index,
              Event.snapshotterRead snap.metadata.term snap.metadata.index], some e)
      | Except.ok sf =>
        let r := publishSnapshotFile st w sf
        (r.1, Event.storageSaveSnapshot snap.metadata.index ::
              Event.snapshotterRead snap.metadata.term snap.metadata.index ::
              r.2.1, r.2.2)

/-- engine.publishReplicate: unmarshal the entry data in place into a
freshly zero-allocated Replicate; on success apply its Data to the state
machine. The deferred broadcast publishes (r.CID, err) in every case,
with r.CID whatever the (possibly partial) unmarshal left in the struct:
0 when the parse failed before the CID field, the parsed value
otherwise. -/
def publishReplicate (st : EngineState) (w : World) (ent : Entry) :
    EngineState × List Event :=
  let r := w.unmarshalReplicate ent.data
  match r.2 with
  | some e => (st, [Event.broadcast r.1.CID (some e)])
  | none =>
    (st, [Event.fsmApply r.1.Data, Event.broadcast r.1.CID (w.fsmApply r.1.Data)])

/-- The pool action of publishConfChange's switch on the conf-change type:
Add and AddLearner add the member, Update updates it, Remove spawns the
delayed removal goroutine (whose error is only logged, never broadcast). -/
def confChangePoolAction (w : World) (cc : ConfChange) (mem : Member) :
    List Event × Option Err :=
  match cc.type with
  | ConfChangeType.ConfChangeAddNode => ([Event.poolAdd mem.id], w.poolAdd mem)
  | ConfChangeType.ConfChangeAddLearnerNode => ([Event.poolAdd mem.id], w.poolAdd mem)
  | ConfChangeType.ConfChangeUpdateNode => ([Event.poolUpdate mem.id], w.poolUpdate mem)
  | ConfChangeType.ConfChangeRemoveNode => ([Event.scheduleRemove mem.id], none)

/-- engine.publishConfChange: unmarshal the ConfChange from the entry (a
failure broadcasts the error under the zero id 0); return early, without
calling ApplyConfChange, when the Context is empty; otherwise unmarshal
the member, run the pool action, forward the ConfChange to the protocol
core storing the returned conf state, and broadcast (cc.id, err). -/
def publishConfChange (st : EngineState) (w : World) (ent : Entry) :
    EngineState × List Event :=
  match w.unmarshalConfChange ent.data with
  | Except.error e => (st, [Event.broadcast 0 (some e)])
  | Except.ok cc =>
    if cc.context = [] then (st, [Event.broadcast cc.id none])
    else
      match w.unmarshalMember cc.context with
      | Except.error e => (st, [Event.broadcast cc.id (some e)])
      | Except.ok mem =>
        let a := confChangePoolAction w cc mem
        ({ st with confState := some (w.applyConfChange cc) },
         a.1 ++ [Event.nodeApplyConfChange cc, Event.broadcast cc.id a.2])

/-- One iteration of engine.publishCommitted's loop: dispatch on the entry
type (EntryNormal with non-empty data goes to publishReplicate,
EntryConfChange to publishConfChange), then set appliedIndex to the
entry's index unconditionally. -/
def publishCommittedStep (w : World) (st : EngineState) (ent : Entry) :
    EngineState × List Event :=
  let r1 :=
    if ent.type = EntryType.EntryNormal ∧ 0 < ent.data.length then
      publishReplicate st w ent
    else (st, [])
  let r2 :=
    if ent.type = EntryType.EntryConfChange then
      publishConfChange r1.1 w ent
    else (r1.1, [])
  ({ r2.1 with appliedIndex := ent.index }, r1.2 ++ r2.2)

/-- engine.publishCommitted: fold publishCommittedStep over the committed
entries in order, accumulating the events. -/
def publishCommitted (st : EngineState) (w : World) :
    List Entry → EngineState × List Event
  | [] => (st, [])
  | ent :: rest =>
    let r1 := publishCommittedStep w st ent
    let r2 := publishCommitted r1.1 w rest
    (r2.1, r1.2 ++ r2.2)

/-- The zero engine state, used only to express that the event traces of
the publish functions do not depend on the engine state. -/
def zeroEngineState : EngineState where
  appliedIndex := 0
  snapIndex := 0
  snapshoting := false
  started := false
  confState := none

/-- The events a single committed entry contributes (they do not depend on
the engine state, only on the oracles and the entry). -/
def entryEvents (w : World) (ent : Entry) : List Event :=
  (if ent.type = EntryType.EntryNormal ∧ 0 < ent.data.length then
    (publishReplicate zeroEngineState w ent).2
  else []) ++
  (if ent.type = EntryType.EntryConfChange then
    (publishConfChange zeroEngineState w ent).2
  else [])

/-- The loop of engine.publishAppliedIndices: broadcast nil under every
index i with start ≤ i < curr + 1, counting up. -/
def broadcastIndicesFrom (start curr : Nat) : List Event :=
  if start < curr + 1 then
    Event.broadcast start none :: broadcastIndicesFrom (start + 1) curr
  else []
termination_by curr + 1 - start

/-- engine.publishAppliedIndices(prev, curr): run the broadcast loop from
prev + 1. -/
def publishAppliedIndices (prev curr : Nat) : List Event :=
  broadcastIndicesFrom (prev + 1) curr

/-- engine.createSnapshot, synchronous part: no-op success when the
applied and snapshot indices are equal; ErrAlreadySnapshotting when the
snapshotting flag is set; otherwise set the flag, call the state
machine's Snapshot (clearing the flag and returning its error on
failure), ask storage to create a snapshot record at the applied index
(same error handling), and finally spawn the background write task,
leaving the flag set. -/
def createSnapshot (st : EngineState) (w : World) :
    EngineState × List Event × Option Err :=
  let appliedIndex := st.appliedIndex
  let snapIndex := st.snapIndex
  if appliedIndex = snapIndex then (st, [], none)
  else if st.snapshoting = true then (st, [], some Err.errAlreadySnapshotting)
  else
    match w.fsmSnapshot with
    | some e => ({ st with snapshoting := false }, [Event.fsmSnapshotCall], some e)
    | none =>
      match w.storageCreateSnapshot with
      | some e =>
        ({ st with snapshoting := false },
         [Event.fsmSnapshotCall, Event.storageCreateSnapshot appliedIndex], some e)
      | none =>
        ({ st with snapshoting := true },
         [Event.fsmSnapshotCall, Event.storageCreateSnapshot appliedIndex,
          Event.spawnSnapshotTask], none)

/-- The background task spawned by createSnapshot, applied to the engine
state at the time it runs: write the snapshot file, save the snapshot,
set snapIndex to the captured applied index, and compact the log when the
captured applied index exceeds the snapshot interval. The deferred
UnSet clears the snapshotting flag when the task body returns, and the
spawning goroutine rewinds snapIndex to the captured snapshot index when
the body failed. -/
def createSnapshotBg (st : EngineState) (w : World)
    (appliedIndex snapIndex snapInterval : Nat) : EngineState × List Event :=
  match w.snapshotterWrite with
  | some _ =>
    ({ st with snapshoting := false, snapIndex := snapIndex },
     [Event.snapshotterWrite])
  | none =>
    match w.storageSaveSnapshot with
    | some _ =>
      ({ st with snapshoting := false, snapIndex := snapIndex },
       [Event.snapshotterWrite, Event.storageSaveSnapshot appliedIndex])
    | none =>
      if appliedIndex ≤ snapInterval then
        ({ st with snapshoting := false, snapIndex := appliedIndex },
         [Event.snapshotterWrite, Event.storageSaveSnapshot appliedIndex])
      else
        match w.storageCompact with
        | some _ =>
          ({ st with snapshoting := false, snapIndex := snapIndex },
           [Event.snapshotterWrite, Event.storageSaveSnapshot appliedIndex,
            Event.compact (appliedIndex - snapInterval)])
        | none =>
          ({ st with snapshoting := false, snapIndex := appliedIndex },
           [Event.snapshotterWrite, Event.storageSaveSnapshot appliedIndex,
            Event.compact (appliedIndex - snapInterval)])

/-- The membership test of engine.forceSnapshot: the target id is looked
up in the voters, the learners and the outgoing voters of the ConfState
carried in the message's own snapshot metadata. -/
def confStateContains (cs : ConfState) (id : Nat) : Bool :=
  [cs.voters, cs.learners, cs.votersOutgoing].any fun set =>
    set.any fun x => x == id

/-- engine.ReportSnapshot: a no-op when the started flag is false,
otherwise report the snapshot status for the given id to the protocol
core (here always the failure status, as forceSnapshot uses it). -/
def reportSnapshot (st : EngineState) (id : Nat) : List Event :=
  if st.started = false then [] else [Event.reportSnapshotFailure id]

/-- engine.forceSnapshot: false (nothing done) unless the message is a
MsgSnap; false when the target is present in the snapshot's own
ConfState; otherwise call createSnapshot, then run the deferred
ReportSnapshot(msg.To, SnapshotFailure), and return true to drop the
message. -/
def forceSnapshot (st : EngineState) (w : World) (msg : Message) :
    Bool × EngineState × List Event :=
  if msg.type ≠ MsgType.MsgSnap then (false, st, [])
  else if confStateContains msg.snapshot.metadata.confState msg.To then
    (false, st, [])
  else
    let r := createSnapshot st w
    (true, r.1, Event.createSnapshotCall :: r.2.1 ++ reportSnapshot r.1 msg.To)

/-- The staging-progress comparison of engine.promotions. The source
compares float64(staging) with float64(leader) multiplied by 0.9; the
comparison is modelled exactly over the rationals, which agrees with the
float64 computation for all indices below 2 to the 53. True means the
staging member has not caught up (the loop skips it). -/
def stagingBehind (staging leader : Nat) : Bool :=
  10 * staging < 9 * leader

/-- The member loop of engine.promotions, head first as the source
iterates: count the voters, count the active voters, and collect every
Staging member whose Match progress has reached 90 percent of the
leader's Match, retyped as a voter. prog gives each node's Match progress
(a missing node maps to 0, the zero Progress value); lid is the leader's
own id from the raft status. Returns (promotions, reachables, voters). -/
def promotionsScan (prog : Nat → Nat) (lid : Nat) :
    List PoolMember → List Member × Nat × Nat
  | [] => ([], 0, 0)
  | m :: rest =>
    let r := promotionsScan prog lid rest
    let voters := if m.type = MemberType.VoterMember then r.2.2 + 1 else r.2.2
    let reachables :=
      if m.isActive = true ∧ m.type = MemberType.VoterMember then r.2.1 + 1
      else r.2.1
    if m.type ≠ MemberType.StagingMember then (r.1, reachables, voters)
    else if stagingBehind (prog m.id) (prog lid) then (r.1, reachables, voters)
    else ({ id := m.id, type := MemberType.VoterMember } :: r.1, reachables, voters)

/-- engine.promotions: nothing proposed when the raft status has no
Progress map (the node is not the leader); otherwise scan the pool
members and, when the reachable voters still form a quorum, propose an
AddNode conf change for every collected promotion. Returns the members
for which a promotion conf change is proposed, in order. -/
def promotions (progress : Option (Nat → Nat)) (lid : Nat)
    (membs : List PoolMember) : List Member :=
  match progress with
  | none => []
  | some prog =>
    let r := promotionsScan prog lid membs
    if r.2.1 < r.2.2 / 2 + 1 then [] else r.1

/-- engine.LinearizableRead: fail fast with ErrStopped when the started
flag is false; the body (the read-index rendezvous with the protocol core
and the message bus) is abstracted as the opBody oracle, marked by the
enterBody event. -/
def linearizableRead (st : EngineState) (w : World) : List Event × Option Err :=
  if st.started = false then ([], some Err.errStopped)
  else ([Event.enterBody], w.opBody)

/-- engine.Push: fail fast with ErrStopped when the started flag is
false; the body (channel dispatch) is abstracted as the opBody oracle. -/
def push (st : EngineState) (w : World) : List Event × Option Err :=
  if st.started = false then ([], some Err.errStopped)
  else ([Event.enterBody], w.opBody)

/-- engine.TransferLeadership: fail fast with ErrStopped when the started
flag is false; the body is abstracted as the opBody oracle. -/
def transferLeadership (st : EngineState) (w : World) : List Event × Option Err :=
  if st.started = false then ([], some Err.errStopped)
  else ([Event.enterBody], w.opBody)

/-- engine.Status: fail fast with ErrStopped when the started flag is
false (only the error component of the result is modelled); otherwise
query the protocol core, abstracted as the opBody oracle. -/
def status (st : EngineState) (w : World) : List Event × Option Err :=
  if st.started = false then ([], some Err.errStopped)
  else ([Event.enterBody], w.opBody)

/-- engine.Shutdown: fail fast with ErrStopped when the started flag is
false; the graceful-termination body is abstracted as the opBody
oracle. -/
def shutdown (st : EngineState) (w : World) : List Event × Option Err :=
  if st.started = false then ([], some Err.errStopped)
  else ([Event.enterBody], w.opBody)

/-- engine.ProposeReplicate: fail fast with ErrStopped when the started
flag is false; the body is abstracted as the opBody oracle. -/
def proposeReplicate (st : EngineState) (w : World) : List Event × Option Err :=
  if st.started = false then ([], some Err.errStopped)
  else ([Event.enterBody], w.opBody)

/-- engine.ProposeConfChange: fail fast with ErrStopped when the started
flag is false; the body is abstracted as the opBody oracle. -/
def proposeConfChange (st : EngineState) (w : World) : List Event × Option Err :=
  if st.started = false then ([], some Err.errStopped)
  else ([Event.enterBody], w.opBody)

/-- engine.CreateSnapshot (the public method): fail fast with ErrStopped
when the started flag is false; the body is abstracted as the opBody
oracle. -/
def createSnapshotPublic (st : EngineState) (w : World) : List Event × Option Err :=
  if st.started = false then ([], some Err.errStopped)
  else ([Event.enterBody], w.opBody)

/-- engine.ForgetLeader: the source forwards to the protocol core's
ForgetLeader unconditionally, with no started-flag check. -/
def forgetLeader (st : EngineState) (w : World) : List Event × Option Err :=
  ([Event.nodeForgetLeaderCall], w.nodeForgetLeader)

/-- True for the events that record a call to the protocol core's
ApplyConfChange. -/
def Event.isApplyConfChange : Event → Bool
  | Event.nodeApplyConfChange _ => true
  | _ => false

/-- True for broadcast events whose id is 0. -/
def Event.isBroadcastZero : Event → Bool
  | Event.broadcast 0 _ => true
  | _ => false

/-- A concrete ConfState used by the concrete evaluations below. -/
def cs0 : ConfState where
  voters := [1, 2]
  learners := [3]
  votersOutgoing := []

/-- A running engine state with distinct applied and snapshot indices. -/
def st0 : EngineState where
  appliedIndex := 5
  snapIndex := 3
  snapshoting := false
  started := true
  confState := none

/-- A running engine state whose applied and snapshot indices agree. -/
def stEq : EngineState where
  appliedIndex := 4
  snapIndex := 4
  snapshoting := false
  started := true
  confState := none

/-- A running engine state with a snapshot creation already in flight. -/
def stBusy : EngineState where
  appliedIndex := 5
  snapIndex := 3
  snapshoting := true
  started := true
  confState := none

/-- An engine state whose started flag is false (never started or shut
down). -/
def stStopped : EngineState where
  appliedIndex := 5
  snapIndex := 3
  snapshoting := false
  started := false
  confState := none

/-- A freshly booted engine state, both indices zero. -/
def stZero : EngineState where
  appliedIndex := 0
  snapIndex := 0
  snapshoting := false
  started := true
  confState := none

/-- A world in which every collaborator call succeeds. -/
def w0 : World where
  unmarshalReplicate := fun d => ({ CID := 9, Data := d }, none)
  unmarshalConfChange := fun _ =>
    Except.ok { id := 7, type := ConfChangeType.ConfChangeAddNode, nodeID := 2,
                context := [1] }
  unmarshalMember := fun _ => Except.ok { id := 2, type := MemberType.VoterMember }
  fsmApply := fun _ => none
  fsmRestore := none
  fsmSnapshot := none
  storageApplySnapshot := none
  storageSaveSnapshot := none
  snapshotterRead := fun t i =>
    Except.ok { raw := { metadata := { index := i, term := t, confState := cs0 },
                         data := [] },
                members := [], data := [] }
  storageCreateSnapshot := none
  snapshotterWrite := none
  storageCompact := none
  poolAdd := fun _ => none
  poolUpdate := fun _ => none
  applyConfChange := fun _ => cs0
  opBody := none
  nodeForgetLeader := none

/-- A world whose state machine fails its Snapshot call. -/
def wSnapFail : World :=
  { w0 with fsmSnapshot := some (Err.external 1) }

/-- A world whose Replicate unmarshalling fails after the CID field has
already been parsed in place (as gogo-protobuf does on wire data carrying
a valid CID field followed by a truncated Data field): the returned
struct keeps CID 9 while the call errors. -/
def wRepPartial : World :=
  { w0 with unmarshalReplicate := fun _ =>
      ({ CID := 9, Data := [] }, some (Err.external 3)) }

/-- A normal entry whose data bytes encode a valid CID field (varint 9)
followed by a Data field whose declared length exceeds the remaining
bytes, so unmarshalling parses the CID and then fails. -/
def entBad : Entry where
  type := EntryType.EntryNormal
  index := 4
  data := [8, 9, 18, 5, 1]

/-- A world whose ConfChange unmarshalling yields a conf change with an
empty Context payload. -/
def wEmptyCC : World :=
  { w0 with unmarshalConfChange := fun _ =>
      Except.ok { id := 7, type := ConfChangeType.ConfChangeAddNode, nodeID := 2,
                  context := [] } }

/-- A concrete snapshot file at index 9. -/
def sf9 : SnapFile where
  raw := { metadata := { index := 9, term := 2, confState := cs0 }, data := [] }
  members := []
  data := []

/-- A concrete snapshot at index 9. -/
def snap9 : Snapshot where
  metadata := { index := 9, term := 2, confState := cs0 }
  data := []

/-- A concrete snapshot at index 1 (for the freshly booted state). -/
def snap1file : SnapFile where
  raw := { metadata := { index := 1, term := 1, confState := cs0 }, data := [] }
  members := []
  data := []

/-- A MsgSnap whose target 9 is absent from the voters, learners and
outgoing voters of the carried snapshot's ConfState. -/
def msgSnapOut : Message where
  type := MsgType.MsgSnap
  To := 9
  snapshot := snap9

/-- A committed batch: a non-empty normal entry, a conf change and an
empty normal entry. -/
def ents0 : List Entry :=
  [{ type := EntryType.EntryNormal, index := 4, data := [1, 2] },
   { type := EntryType.EntryConfChange, index := 5, data := [3] },
   { type := EntryType.EntryNormal, index := 6, data := [] }]

/-- A committed conf-change entry. -/
def entCC : Entry where
  type := EntryType.EntryConfChange
  index := 5
  data := [3]

/-- A concrete Match-progress table: the leader 1 at 100, node 4 at 95,
node 5 at 10, everyone else at 0. -/
def progW : Nat → Nat
  | 1 => 100
  | 4 => 95
  | 5 => 10
  | _ => 0

/-- A pool with a quorum of active voters and one caught-up staging
member. -/
def membsOk : List PoolMember :=
  [{ id := 1, type := MemberType.VoterMember, isActive := true },
   { id := 2, type := MemberType.VoterMember, isActive := true },
   { id := 3, type := MemberType.VoterMember, isActive := false },
   { id := 4, type := MemberType.StagingMember, isActive := true },
   { id := 5, type := MemberType.StagingMember, isActive := true }]

/-- A pool that has lost quorum (one active voter out of three) while a
staging member is caught up. -/
def membsLost : List PoolMember :=
  [{ id := 1, type := MemberType.VoterMember, isActive := true },
   { id := 2, type := MemberType.VoterMember, isActive := false },
   { id := 3, type := MemberType.VoterMember, isActive := false },
   { id := 4, type := MemberType.StagingMember, isActive := true }]

/-- C4: createSnapshot is a success no-op (no flag write, no collaborator
call) when the applied and snapshot indices are equal; it returns
ErrAlreadySnapshotting, everything unchanged, when the snapshotting flag
is already set; and when the state machine's Snapshot call fails the flag
ends cleared, the only collaborator call is that Snapshot call, and the
error is returned. -/
theorem createSnapshot_spec (st : EngineState) (w : World) :
    (st.appliedIndex = st.snapIndex → createSnapshot st w = (st, [], none))
    ∧ (st.appliedIndex ≠ st.snapIndex → st.snapshoting = true →
        createSnapshot st w = (st, [], some Err.errAlreadySnapshotting))
    ∧ (∀ e, st.appliedIndex ≠ st.snapIndex → st.snapshoting = false →
        w.fsmSnapshot = some e →
        createSnapshot st w = (st, [Event.fsmSnapshotCall], some e)) := by
  refine ⟨?_, ?_, ?_⟩
  · intro h
    simp [createSnapshot, h]
  · intro h hb
    simp [createSnapshot, h, hb]
  · intro e h hb hsnap
    have hst : { st with snapshoting := false } = st := by
      cases st
      simp_all
    simp [createSnapshot, h, hb, hsnap, hst]

/-- Witness for C4 at concrete inputs: the equal-indices state, the
busy state and the Snapshot-failure world. -/
theorem createSnapshot_spec_witness :
    createSnapshot stEq w0 = (stEq, [], none)
    ∧ createSnapshot stBusy w0 = (stBusy, [], some Err.errAlreadySnapshotting)
    ∧ createSnapshot st0 wSnapFail =
        (st0, [Event.fsmSnapshotCall], some (Err.external 1)) :=
  ⟨(createSnapshot_spec stEq w0).1 (by decide),
   (createSnapshot_spec stBusy w0).2.1 (by decide) (by decide),
   (createSnapshot_spec st0 wSnapFail).2.2 (Err.external 1) (by decide) (by decide)
     (by rfl)⟩

/-- C3: publishSnapshot returns nil and changes nothing on an empty
snapshot; on a non-empty snapshot whose index does not exceed the applied
index it returns an error with no state change and no collaborator call;
and whenever publishSnapshotFile succeeds, the applied and snapshot
indices both equal the installed snapshot's index and the stored conf
state is the snapshot's ConfState. -/
theorem publishSnapshot_spec (st : EngineState) (w : World) (snap : Snapshot)
    (sf : SnapFile) :
    (IsEmptySnap snap = true → publishSnapshot st w snap = (st, [], none))
    ∧ (IsEmptySnap snap = false → snap.metadata.index ≤ st.appliedIndex →
        publishSnapshot st w snap =
          (st, [], some (Err.snapshotOutOfDate snap.metadata.index st.appliedIndex)))
    ∧ ((publishSnapshotFile st w sf).2.2 = none →
        (publishSnapshotFile st w sf).1.appliedIndex = sf.raw.metadata.index
        ∧ (publishSnapshotFile st w sf).1.snapIndex = sf.raw.metadata.index
        ∧ (publishSnapshotFile st w sf).1.confState = some sf.raw.metadata.confState) := by
  refine ⟨?_, ?_, ?_⟩
  · intro h
    simp [publishSnapshot, h]
  · intro h hle
    simp [publishSnapshot, h, hle]
  · intro h
    unfold publishSnapshotFile at h ⊢
    cases hap : w.storageApplySnapshot with
    | some e => simp [hap] at h
    | none =>
      cases hre : w.fsmRestore with
      | some e => simp [hap, hre] at h
      | none => simp [hap, hre]

/-- Witness for C3 at concrete inputs: the empty snapshot, a stale
snapshot at index 3 against applied index 5, and the successful
installation of the snapshot file at index 9. -/
theorem publishSnapshot_spec_witness :
    publishSnapshot st0 w0 { metadata := { index := 0, term := 0, confState := cs0 },
                             data := [] } = (st0, [], none)
    ∧ publishSnapshot st0 w0 { metadata := { index := 3, term := 2, confState := cs0 },
                               data := [] } =
        (st0, [], some (Err.snapshotOutOfDate 3 5))
    ∧ ((publishSnapshotFile st0 w0 sf9).1.appliedIndex = 9
        ∧ (publishSnapshotFile st0 w0 sf9).1.snapIndex = 9
        ∧ (publishSnapshotFile st0 w0 sf9).1.confState = some cs0) :=
  ⟨(publishSnapshot_spec st0 w0 _ sf9).1 (by decide),
   (publishSnapshot_spec st0 w0 { metadata := { index := 3, term := 2, confState := cs0 },
                                  data := [] } sf9).2.1 (by decide) (by decide),
   (publishSnapshot_spec st0 w0 snap9 sf9).2.2 (by rfl)⟩

/-- C10 (amended): when the entry data of a committed normal entry fails
to unmarshal as a Replicate, publishReplicate leaves the state unchanged
and performs exactly one collaborator call: the deferred broadcast of the
unmarshal error under the CID the in-place partial unmarshal left in the
struct — 0 only when the parse failed before the CID field, the parsed
value otherwise; the state machine's Apply is never called, and the
broadcast carries no other id than that CID. -/
theorem publishReplicate_unmarshal_error (st : EngineState) (w : World)
    (ent : Entry) (r : Replicate) (e : Err)
    (h : w.unmarshalReplicate ent.data = (r, some e)) :
    publishReplicate st w ent = (st, [Event.broadcast r.CID (some e)])
    ∧ (∀ d, Event.fsmApply d ∉ (publishReplicate st w ent).2)
    ∧ (∀ id v, Event.broadcast id v ∈ (publishReplicate st w ent).2 →
        id = r.CID) := by
  refine ⟨?_, ?_, ?_⟩
  · simp [publishReplicate, h]
  · intro d
    simp [publishReplicate, h]
  · intro id v hmem
    simp [publishReplicate, h] at hmem
    exact hmem.1

/-- Witness for C10 (amended) at a concrete input: the world whose
unmarshal fails after parsing CID 9 in place, on the entry with the
truncated Data field. -/
theorem publishReplicate_unmarshal_error_witness :
    publishReplicate st0 wRepPartial entBad =
      (st0, [Event.broadcast 9 (some (Err.external 3))])
    ∧ Event.fsmApply [1, 2] ∉ (publishReplicate st0 wRepPartial entBad).2 :=
  ⟨(publishReplicate_unmarshal_error st0 wRepPartial entBad
      { CID := 9, Data := [] } (Err.external 3) (by rfl)).1,
   (publishReplicate_unmarshal_error st0 wRepPartial entBad
      { CID := 9, Data := [] } (Err.external 3) (by rfl)).2.1 [1, 2]⟩

/-- Counterexample to C10 as stated: on entry data carrying a valid CID
field (value 9, the producing proposal's change id under the concrete
world) followed by a truncated Data field, the in-place unmarshal fails
with CID already set to 9, so the deferred broadcast fires under id 9 —
not under id 0 — and would wake exactly the waiter of the proposal that
produced the entry. -/
theorem publishReplicate_partial_cid_cex :
    (publishReplicate st0 wRepPartial entBad).2 =
      [Event.broadcast 9 (some (Err.external 3))]
    ∧ (publishReplicate st0 wRepPartial entBad).2.all
        (fun ev => ! ev.isBroadcastZero) = true
    ∧ (9 : Nat) ≠ 0 := by
  decide

/-- The broadcast loop enumerates exactly the interval of indices from
its start (inclusive) up to curr (inclusive), in order. -/
theorem broadcastIndicesFrom_eq_range (start curr : Nat) :
    broadcastIndicesFrom start curr =
      (List.range' start (curr + 1 - start)).map fun i => Event.broadcast i none := by
  generalize hn : curr + 1 - start = n
  induction n generalizing start with
  | zero =>
    rw [broadcastIndicesFrom]
    have h : ¬ start < curr + 1 := by omega
    simp [h]
  | succ n ih =>
    rw [broadcastIndicesFrom]
    have h : start < curr + 1 := by omega
    have h2 : curr + 1 - (start + 1) = n := by omega
    simp only [h, if_true, ih (start + 1) h2, List.range']
    simp

/-- C9: publishAppliedIndices(prev, curr) broadcasts the nil value for
exactly the indices i with prev < i and i at most curr, once each and in
ascending order (it equals the ascending interval list), and broadcasts
nothing at all when the two captured indices coincide. -/
theorem publishAppliedIndices_spec (prev curr : Nat) :
    publishAppliedIndices prev curr =
      ((List.range' (prev + 1) (curr - prev)).map fun i => Event.broadcast i none)
    ∧ (∀ i, Event.broadcast i none ∈ publishAppliedIndices prev curr ↔
        prev < i ∧ i ≤ curr)
    ∧ (publishAppliedIndices prev curr).Nodup
    ∧ publishAppliedIndices curr curr = [] := by
  have hrange : curr + 1 - (prev + 1) = curr - prev := by omega
  have heq : publishAppliedIndices prev curr =
      (List.range' (prev + 1) (curr - prev)).map fun i => Event.broadcast i none := by
    rw [publishAppliedIndices, broadcastIndicesFrom_eq_range, hrange]
  refine ⟨heq, ?_, ?_, ?_⟩
  · intro i
    rw [heq]
    constructor
    · intro hmem
      rcases List.mem_map.mp hmem with ⟨j, hj, hji⟩
      have hj2 : j = i := by simpa using hji
      subst hj2
      have := List.mem_range'_1.mp hj
      omega
    · intro hi
      refine List.mem_map.mpr ⟨i, List.mem_range'_1.mpr ⟨by omega, by omega⟩, rfl⟩
  · rw [heq]
    refine List.Nodup.map ?_ (List.nodup_range' (prev + 1) (curr - prev))
    intro a b hab
    simpa using hab
  · have h0 : curr + 1 - (curr + 1) = 0 := by omega
    rw [publishAppliedIndices, broadcastIndicesFrom_eq_range, h0]
    simp

/-- C5 (amended): with the started flag false, every public engine
operation except ForgetLeader fails fast with ErrStopped and performs no
collaborator call; ForgetLeader has no started-flag guard and forwards to
the protocol core's ForgetLeader unconditionally. -/
theorem startedGuard_spec (st : EngineState) (w : World)
    (h : st.started = false) :
    linearizableRead st w = ([], some Err.errStopped)
    ∧ push st w = ([], some Err.errStopped)
    ∧ transferLeadership st w = ([], some Err.errStopped)
    ∧ status st w = ([], some Err.errStopped)
    ∧ shutdown st w = ([], some Err.errStopped)
    ∧ proposeReplicate st w = ([], some Err.errStopped)
    ∧ proposeConfChange st w = ([], some Err.errStopped)
    ∧ createSnapshotPublic st w = ([], some Err.errStopped)
    ∧ forgetLeader st w = ([Event.nodeForgetLeaderCall], w.nodeForgetLeader) := by
  refine ⟨?_, ?_, ?_, ?_, ?_, ?_, ?_, ?_, ?_⟩ <;>
    simp [linearizableRead, push, transferLeadership, status, shutdown,
          proposeReplicate, proposeConfChange, createSnapshotPublic,
          forgetLeader, h]

/-- Witness for C5 (amended) on the concrete stopped state and the
all-success world. -/
theorem startedGuard_spec_witness :
    linearizableRead stStopped w0 = ([], some Err.errStopped)
    ∧ shutdown stStopped w0 = ([], some Err.errStopped)
    ∧ forgetLeader stStopped w0 = ([Event.nodeForgetLeaderCall], none) :=
  ⟨(startedGuard_spec stStopped w0 (by rfl)).1,
   (startedGuard_spec stStopped w0 (by rfl)).2.2.2.2.1,
   (startedGuard_spec stStopped w0 (by rfl)).2.2.2.2.2.2.2.2⟩

/-- Counterexample to C5 as stated: on an engine whose started flag is
false, ForgetLeader does not return ErrStopped (here it returns nil) and
it does invoke the protocol core. -/
theorem forgetLeader_no_guard_cex :
    stStopped.started = false
    ∧ (forgetLeader stStopped w0).2 ≠ some Err.errStopped
    ∧ (forgetLeader stStopped w0).1 = [Event.nodeForgetLeaderCall] := by
  refine ⟨by rfl, ?_, by rfl⟩
  simp [forgetLeader, w0]

/-- C6 (amended): for a committed conf-change entry whose ConfChange
decodes successfully, publishConfChange broadcasts (cc.id, nil) and
returns without calling ApplyConfChange when the Context payload is
empty; when the Context is non-empty and the member payload decodes, it
runs the pool action, forwards the ConfChange to the protocol core's
ApplyConfChange, stores the returned conf state, and broadcasts
(cc.id, err). -/
theorem publishConfChange_spec (st : EngineState) (w : World) (ent : Entry)
    (cc : ConfChange) (mem : Member)
    (hcc : w.unmarshalConfChange ent.data = Except.ok cc) :
    (cc.context = [] → publishConfChange st w ent = (st, [Event.broadcast cc.id none]))
    ∧ (cc.context ≠ [] → w.unmarshalMember cc.context = Except.ok mem →
        publishConfChange st w ent =
          ({ st with confState := some (w.applyConfChange cc) },
           (confChangePoolAction w cc mem).1 ++
             [Event.nodeApplyConfChange cc,
              Event.broadcast cc.id (confChangePoolAction w cc mem).2])) := by
  constructor
  · intro hctx
    simp [publishConfChange, hcc, hctx]
  · intro hctx hmem
    simp [publishConfChange, hcc, hctx, hmem]

/-- Witness for C6 (amended): the empty-Context conf change is only
acknowledged, while the all-success world's conf change (non-empty
Context, AddNode) reaches the pool and the protocol core. -/
theorem publishConfChange_spec_witness :
    publishConfChange st0 wEmptyCC entCC = (st0, [Event.broadcast 7 none])
    ∧ publishConfChange st0 w0 entCC =
        ({ st0 with confState := some cs0 },
         [Event.poolAdd 2, Event.nodeApplyConfChange
            { id := 7, type := ConfChangeType.ConfChangeAddNode, nodeID := 2,
              context := [1] },
          Event.broadcast 7 none]) :=
  ⟨(publishConfChange_spec st0 wEmptyCC entCC
      { id := 7, type := ConfChangeType.ConfChangeAddNode, nodeID := 2, context := [] }
      { id := 2, type := MemberType.VoterMember } (by rfl)).1 (by rfl),
   (publishConfChange_spec st0 w0 entCC
      { id := 7, type := ConfChangeType.ConfChangeAddNode, nodeID := 2, context := [1] }
      { id := 2, type := MemberType.VoterMember } (by rfl)).2 (by decide) (by rfl)⟩

/-- Counterexample to C6 as stated: a conf-change entry that decodes
successfully but carries an empty Context payload is never forwarded to
ApplyConfChange and the stored conf state is not updated. -/
theorem publishConfChange_empty_context_cex :
    (publishConfChange st0 wEmptyCC entCC).1.confState = none
    ∧ (publishConfChange st0 wEmptyCC entCC).2.all
        (fun ev => ! ev.isApplyConfChange) = true := by
  decide

/-- The synchronous part of createSnapshot never changes the started
flag. -/
theorem createSnapshot_started (st : EngineState) (w : World) :
    (createSnapshot st w).1.started = st.started := by
  unfold createSnapshot
  cases hsnap : w.fsmSnapshot <;> cases hcs : w.storageCreateSnapshot <;>
    split <;> simp_all <;> split <;> simp_all

/-- C8: forceSnapshot drops a message exactly when it is a MsgSnap whose
target is absent from the voters, the learners and the outgoing voters of
the ConfState carried in the message's own snapshot metadata; messages of
any other type, and MsgSnap messages whose target is present, are left
alone with no state change and no collaborator call; and on a dropped
message a fresh snapshot creation is invoked and a snapshot failure for
the target is reported to the protocol core. -/
theorem forceSnapshot_spec (st : EngineState) (w : World) (m : Message)
    (hs : st.started = true) :
    ((forceSnapshot st w m).1 = true ↔
      (m.type = MsgType.MsgSnap ∧
        confStateContains m.snapshot.metadata.confState m.To = false))
    ∧ (m.type ≠ MsgType.MsgSnap → forceSnapshot st w m = (false, st, []))
    ∧ (m.type = MsgType.MsgSnap →
        confStateContains m.snapshot.metadata.confState m.To = true →
        forceSnapshot st w m = (false, st, []))
    ∧ ((forceSnapshot st w m).1 = true →
        Event.createSnapshotCall ∈ (forceSnapshot st w m).2.2
        ∧ Event.reportSnapshotFailure m.To ∈ (forceSnapshot st w m).2.2) := by
  by_cases ht : m.type = MsgType.MsgSnap
  · by_cases hc : confStateContains m.snapshot.metadata.confState m.To = true
    · refine ⟨?_, ?_, ?_, ?_⟩
      · simp [forceSnapshot, ht, hc]
      · intro h
        exact absurd ht h
      · intro _ _
        simp [forceSnapshot, ht, hc]
      · intro h
        simp [forceSnapshot, ht, hc] at h
    · have hcf : confStateContains m.snapshot.metadata.confState m.To = false := by
        simpa using hc
      have hrep : reportSnapshot (createSnapshot st w).1 m.To =
          [Event.reportSnapshotFailure m.To] := by
        have := createSnapshot_started st w
        rw [hs] at this
        simp [reportSnapshot, this]
      refine ⟨?_, ?_, ?_, ?_⟩
      · simp [forceSnapshot, ht, hcf]
      · intro h
        exact absurd ht h
      · intro _ hcc
        rw [hcc] at hcf
        simp at hcf
      · intro _
        simp [forceSnapshot, ht, hcf, hrep]
  · refine ⟨?_, ?_, ?_, ?_⟩
    · simp [forceSnapshot, ht]
    · intro _
      simp [forceSnapshot, ht]
    · intro h
      exact absurd h ht
    · intro h
      simp [forceSnapshot, ht] at h

/-- Witness for C8: a MsgSnap to node 9, absent from the carried
ConfState, is dropped with a snapshot creation and a failure report,
while a MsgApp to the same target is left alone. -/
theorem forceSnapshot_spec_witness :
    (forceSnapshot st0 w0 msgSnapOut).1 = true
    ∧ Event.createSnapshotCall ∈ (forceSnapshot st0 w0 msgSnapOut).2.2
    ∧ Event.reportSnapshotFailure 9 ∈ (forceSnapshot st0 w0 msgSnapOut).2.2
    ∧ forceSnapshot st0 w0 { msgSnapOut with type := MsgType.MsgApp } =
        (false, st0, []) := by
  have h1 : (forceSnapshot st0 w0 msgSnapOut).1 = true :=
    ((forceSnapshot_spec st0 w0 msgSnapOut (by rfl)).1).mpr ⟨by rfl, by decide⟩
  have h2 := (forceSnapshot_spec st0 w0 msgSnapOut (by rfl)).2.2.2 h1
  have h3 := (forceSnapshot_spec st0 w0
    { msgSnapOut with type := MsgType.MsgApp } (by rfl)).2.1 (by decide)
  exact ⟨h1, h2.1, h2.2, h3⟩

/-- publishReplicate never changes the engine state. -/
theorem publishReplicate_state (st : EngineState) (w : World) (ent : Entry) :
    (publishReplicate st w ent).1 = st := by
  unfold publishReplicate
  cases h : (w.unmarshalReplicate ent.data).2 <;> simp [h]

/-- The events of publishReplicate do not depend on the engine state. -/
theorem publishReplicate_events_const (st st' : EngineState) (w : World)
    (ent : Entry) :
    (publishReplicate st w ent).2 = (publishReplicate st' w ent).2 := by
  unfold publishReplicate
  cases h : (w.unmarshalReplicate ent.data).2 <;> simp [h]

/-- publishConfChange changes neither index of the engine state. -/
theorem publishConfChange_indices (st : EngineState) (w : World) (ent : Entry) :
    (publishConfChange st w ent).1.appliedIndex = st.appliedIndex
    ∧ (publishConfChange st w ent).1.snapIndex = st.snapIndex := by
  unfold publishConfChange
  cases w.unmarshalConfChange ent.data with
  | error e => simp
  | ok cc =>
    by_cases hctx : cc.context = []
    · simp [hctx]
    · cases hm : w.unmarshalMember cc.context <;> simp [hctx, hm]

/-- The events of publishConfChange do not depend on the engine state. -/
theorem publishConfChange_events_const (st st' : EngineState) (w : World)
    (ent : Entry) :
    (publishConfChange st w ent).2 = (publishConfChange st' w ent).2 := by
  unfold publishConfChange
  cases w.unmarshalConfChange ent.data with
  | error e => simp
  | ok cc =>
    by_cases hctx : cc.context = []
    · simp [hctx]
    · cases hm : w.unmarshalMember cc.context <;> simp [hctx, hm]

/-- One loop iteration of publishCommitted contributes exactly the
entry's own events, independently of the engine state. -/
theorem publishCommittedStep_events (w : World) (st : EngineState) (ent : Entry) :
    (publishCommittedStep w st ent).2 = entryEvents w ent := by
  unfold publishCommittedStep entryEvents
  by_cases h1 : ent.type = EntryType.EntryNormal ∧ 0 < ent.data.length
  · by_cases h2 : ent.type = EntryType.EntryConfChange
    · rw [h2] at h1
      simp at h1
    · simp only [h1, if_true, h2, if_false]
      simp [publishReplicate_events_const st zeroEngineState w ent]
  · by_cases h2 : ent.type = EntryType.EntryConfChange
    · simp only [h1, if_false, h2, if_true]
      simp [publishConfChange_events_const st zeroEngineState w ent]
    · simp [h1, h2]

/-- One loop iteration of publishCommitted sets the applied index to the
entry's index, whatever the entry's type and payload. -/
theorem publishCommittedStep_applied (w : World) (st : EngineState) (ent : Entry) :
    (publishCommittedStep w st ent).1.appliedIndex = ent.index := by
  unfold publishCommittedStep
  simp

/-- One loop iteration of publishCommitted never changes the snapshot
index. -/
theorem publishCommittedStep_snap (w : World) (st : EngineState) (ent : Entry) :
    (publishCommittedStep w st ent).1.snapIndex = st.snapIndex := by
  unfold publishCommittedStep
  by_cases h1 : ent.type = EntryType.EntryNormal ∧ 0 < ent.data.length
  · by_cases h2 : ent.type = EntryType.EntryConfChange
    · rw [h2] at h1
      simp at h1
    · simp only [h1, if_true, h2, if_false]
      simp [(publishConfChange_indices _ w ent).2, publishReplicate_state]
  · by_cases h2 : ent.type = EntryType.EntryConfChange
    · simp only [h1, if_false, h2, if_true]
      simp [(publishConfChange_indices _ w ent).2]
    · simp [h1, h2]

/-- publishCommitted emits the concatenation, in order, of the events of
each committed entry. -/
theorem publishCommitted_events (st : EngineState) (w : World)
    (ents : List Entry) :
    (publishCommitted st w ents).2 = (ents.map (entryEvents w)).flatten := by
  induction ents generalizing st with
  | nil => simp [publishCommitted]
  | cons ent rest ih =>
    simp only [publishCommitted, List.map_cons, List.flatten_cons]
    rw [publishCommittedStep_events, ih]

/-- publishCommitted never changes the snapshot index. -/
theorem publishCommitted_snap (st : EngineState) (w : World)
    (ents : List Entry) :
    (publishCommitted st w ents).1.snapIndex = st.snapIndex := by
  induction ents generalizing st with
  | nil => simp [publishCommitted]
  | cons ent rest ih =>
    simp only [publishCommitted]
    rw [ih, publishCommittedStep_snap]

/-- After a non-empty batch, the applied index equals the last entry's
index. -/
theorem publishCommitted_applied (st : EngineState) (w : World) :
    ∀ (ents : List Entry) (h : ents ≠ []),
      (publishCommitted st w ents).1.appliedIndex = (ents.getLast h).index := by
  intro ents
  induction ents generalizing st with
  | nil => intro h; exact absurd rfl h
  | cons ent rest ih =>
    intro h
    cases rest with
    | nil => simp [publishCommitted, publishCommittedStep_applied]
    | cons b bs =>
      have hun : (publishCommitted st w (ent :: b :: bs)).1 =
          (publishCommitted (publishCommittedStep w st ent).1 w (b :: bs)).1 := rfl
      rw [hun, ih _ (by simp)]
      congr 1

/-- C2: publishCommitted handles the committed entries in order (its
event trace is the in-order concatenation of the per-entry events); a
normal entry with non-empty data whose payload decodes as
Replicate(CID, Data) contributes exactly the Apply call on Data followed
by the broadcast of (CID, apply-error); every entry, of either type, sets
the applied index to its own index; and after a non-empty batch the
applied index equals the last entry's index. -/
theorem publishCommitted_spec (st : EngineState) (w : World)
    (ents : List Entry) :
    ((publishCommitted st w ents).2 = (ents.map (entryEvents w)).flatten)
    ∧ (∀ ent r, ent.type = EntryType.EntryNormal → 0 < ent.data.length →
        w.unmarshalReplicate ent.data = (r, none) →
        entryEvents w ent =
          [Event.fsmApply r.Data, Event.broadcast r.CID (w.fsmApply r.Data)])
    ∧ (∀ ent st', (publishCommittedStep w st' ent).1.appliedIndex = ent.index)
    ∧ (∀ h : ents ≠ [],
        (publishCommitted st w ents).1.appliedIndex = (ents.getLast h).index) := by
  refine ⟨publishCommitted_events st w ents, ?_, ?_, ?_⟩
  · intro ent r ht hd hr
    have hnc : ¬ ent.type = EntryType.EntryConfChange := by
      rw [ht]
      simp
    unfold entryEvents
    simp only [ht, hd, and_self, if_true, hnc, if_false, true_and]
    simp [publishReplicate, hr]
  · intro ent st'
    exact publishCommittedStep_applied w st' ent
  · intro h
    exact publishCommitted_applied st w ents h

/-- Witness for C2 on the concrete batch: the full event trace and the
final applied index 6 (the last entry's index). -/
theorem publishCommitted_spec_witness :
    (publishCommitted st0 w0 ents0).2 = (ents0.map (entryEvents w0)).flatten
    ∧ entryEvents w0 { type := EntryType.EntryNormal, index := 4, data := [1, 2] } =
        [Event.fsmApply [1, 2], Event.broadcast 9 none]
    ∧ (publishCommitted st0 w0 ents0).1.appliedIndex = 6 :=
  ⟨(publishCommitted_spec st0 w0 ents0).1,
   (publishCommitted_spec st0 w0 ents0).2.1
      { type := EntryType.EntryNormal, index := 4, data := [1, 2] }
      { CID := 9, Data := [1, 2] } (by rfl) (by decide) (by rfl),
   (publishCommitted_spec st0 w0 ents0).2.2.2 (by decide)⟩

/-- The promotion scan collects (retyped as voters) exactly the staging
members whose Match progress has reached 90 percent of the leader's
Match. -/
theorem promotionsScan_mem (prog : Nat → Nat) (lid : Nat)
    (membs : List PoolMember) (m : Member) :
    m ∈ (promotionsScan prog lid membs).1 ↔
      ∃ pm, pm ∈ membs ∧ pm.type = MemberType.StagingMember ∧
        9 * prog lid ≤ 10 * prog pm.id ∧
        m = { id := pm.id, type := MemberType.VoterMember } := by
  induction membs with
  | nil => simp [promotionsScan]
  | cons a rest ih =>
    by_cases ha : a.type = MemberType.StagingMember
    · by_cases hb : stagingBehind (prog a.id) (prog lid) = true
      · have hgt : ¬ 9 * prog lid ≤ 10 * prog a.id := by
          simp [stagingBehind] at hb
          omega
        have hsc : (promotionsScan prog lid (a :: rest)).1 =
            (promotionsScan prog lid rest).1 := by
          simp [promotionsScan, ha, hb]
        rw [hsc, ih]
        constructor
        · rintro ⟨pm, hpm, hrest⟩
          exact ⟨pm, List.mem_cons_of_mem a hpm, hrest⟩
        · rintro ⟨pm, hpm, hst, hle, hm⟩
          rcases List.mem_cons.mp hpm with hpa | hpr
          · subst hpa
            exact absurd hle hgt
          · exact ⟨pm, hpr, hst, hle, hm⟩
      · have hle : 9 * prog lid ≤ 10 * prog a.id := by
          simp [stagingBehind] at hb
          omega
        have hsc : (promotionsScan prog lid (a :: rest)).1 =
            { id := a.id, type := MemberType.VoterMember } ::
              (promotionsScan prog lid rest).1 := by
          simp [promotionsScan, ha, hb]
        rw [hsc]
        constructor
        · intro hm
          rcases List.mem_cons.mp hm with hma | hmr
          · exact ⟨a, List.mem_cons_self a rest, ha, hle, hma⟩
          · rcases ih.mp hmr with ⟨pm, hpm, hrest⟩
            exact ⟨pm, List.mem_cons_of_mem a hpm, hrest⟩
        · rintro ⟨pm, hpm, hst, hple, hm⟩
          rcases List.mem_cons.mp hpm with hpa | hpr
          · subst hpa
            exact List.mem_cons.mpr (Or.inl hm)
          · exact List.mem_cons_of_mem _ (ih.mpr ⟨pm, hpr, hst, hple, hm⟩)
    · have hsc : (promotionsScan prog lid (a :: rest)).1 =
          (promotionsScan prog lid rest).1 := by
        simp [promotionsScan, ha]
      rw [hsc, ih]
      constructor
      · rintro ⟨pm, hpm, hrest⟩
        exact ⟨pm, List.mem_cons_of_mem a hpm, hrest⟩
      · rintro ⟨pm, hpm, hst, hle, hm⟩
        rcases List.mem_cons.mp hpm with hpa | hpr
        · subst hpa
          exact absurd hst ha
        · exact ⟨pm, hpr, hst, hle, hm⟩

/-- C7: when this node is leader (the raft status carries a Progress
map), a member is collected for promotion exactly when its type is
Staging and its Match progress is at least 0.9 times the leader's Match
(the float64 comparison of the source modelled exactly over the
rationals); and when the count of active voters is strictly below
floor(voters over 2) plus 1, no promotion conf change is proposed at
all, while with quorum intact exactly the collected members are
proposed. -/
theorem promotions_spec (prog : Nat → Nat) (lid : Nat)
    (membs : List PoolMember) :
    (∀ m, m ∈ (promotionsScan prog lid membs).1 ↔
      ∃ pm, pm ∈ membs ∧ pm.type = MemberType.StagingMember ∧
        9 * prog lid ≤ 10 * prog pm.id ∧
        m = { id := pm.id, type := MemberType.VoterMember })
    ∧ ((promotionsScan prog lid membs).2.1 <
        (promotionsScan prog lid membs).2.2 / 2 + 1 →
        promotions (some prog) lid membs = [])
    ∧ (¬ (promotionsScan prog lid membs).2.1 <
        (promotionsScan prog lid membs).2.2 / 2 + 1 →
        promotions (some prog) lid membs = (promotionsScan prog lid membs).1)
    ∧ promotions none lid membs = [] := by
  refine ⟨fun m => promotionsScan_mem prog lid membs m, ?_, ?_, ?_⟩
  · intro h
    simp [promotions, h]
  · intro h
    simp [promotions, if_neg h]
  · simp [promotions]

/-- Witness for C7: with the concrete progress table (leader 1 at 100),
the quorum-lost pool proposes nothing although member 4 is a caught-up
staging member, and the healthy pool proposes exactly member 4 promoted
to voter (member 5, at 10 percent, is not collected). -/
theorem promotions_spec_witness :
    promotions (some progW) 1 membsLost = []
    ∧ promotions (some progW) 1 membsOk =
        [{ id := 4, type := MemberType.VoterMember }]
    ∧ ({ id := 4, type := MemberType.VoterMember } : Member) ∈
        (promotionsScan progW 1 membsLost).1 :=
  ⟨(promotions_spec progW 1 membsLost).2.1 (by decide),
   ((promotions_spec progW 1 membsOk).2.2.1 (by decide)).trans (by decide),
   ((promotions_spec progW 1 membsLost).1 _).mpr
     ⟨{ id := 4, type := MemberType.StagingMember, isActive := true },
      by decide, by rfl, by decide, by rfl⟩⟩

/-- publishSnapshotFile either leaves the engine state unchanged (error
paths) or sets both indices to the snapshot's index, so it preserves the
applied-at-least-snapshot inequality as a whole. -/
theorem publishSnapshotFile_inv (st : EngineState) (w : World) (sf : SnapFile)
    (hinv : st.snapIndex ≤ st.appliedIndex) :
    (publishSnapshotFile st w sf).1.snapIndex ≤
      (publishSnapshotFile st w sf).1.appliedIndex := by
  unfold publishSnapshotFile
  cases w.storageApplySnapshot <;> cases w.fsmRestore <;> simp [hinv]

/-- The synchronous part of createSnapshot never changes either index. -/
theorem createSnapshot_indices (st : EngineState) (w : World) :
    (createSnapshot st w).1.appliedIndex = st.appliedIndex
    ∧ (createSnapshot st w).1.snapIndex = st.snapIndex := by
  unfold createSnapshot
  by_cases h1 : st.appliedIndex = st.snapIndex
  · simp [h1]
  · by_cases h2 : st.snapshoting = true
    · simp [h1, h2]
    · cases hf : w.fsmSnapshot <;> cases hc : w.storageCreateSnapshot <;>
        simp [h1, h2, hf, hc]

/-- The createSnapshot background task leaves the applied index alone and
sets the snapshot index either to the captured applied index or back to
the captured snapshot index, so it preserves the invariant whenever both
captured indices are at most the current applied index. -/
theorem createSnapshotBg_inv (st : EngineState) (w : World)
    (capA capS snapInterval : Nat) (hA : capA ≤ st.appliedIndex)
    (hS : capS ≤ st.appliedIndex) :
    (createSnapshotBg st w capA capS snapInterval).1.snapIndex ≤
      (createSnapshotBg st w capA capS snapInterval).1.appliedIndex := by
  unfold createSnapshotBg
  cases w.snapshotterWrite <;> cases w.storageSaveSnapshot <;>
    cases w.storageCompact <;> split_ifs <;> simp_all

/-- publishCommitted preserves the invariant whenever every committed
entry's index is at least the snapshot index. -/
theorem publishCommitted_inv (st : EngineState) (w : World) (ents : List Entry)
    (hinv : st.snapIndex ≤ st.appliedIndex)
    (hents : ∀ e ∈ ents, st.snapIndex ≤ e.index) :
    (publishCommitted st w ents).1.snapIndex ≤
      (publishCommitted st w ents).1.appliedIndex := by
  cases ents with
  | nil => simpa [publishCommitted] using hinv
  | cons a l =>
    rw [publishCommitted_snap, publishCommitted_applied st w (a :: l) (by simp)]
    exact hents _ (List.getLast_mem _)

/-- On success, the returned indices of publishSnapshotFile are exactly
the last element of its index trace, so the trace ends at the function's
actual post-state. -/
theorem publishSnapshotFileIndexStates_last (st : EngineState) (w : World)
    (sf : SnapFile) (h : (publishSnapshotFile st w sf).2.2 = none) :
    ((publishSnapshotFile st w sf).1.appliedIndex,
      (publishSnapshotFile st w sf).1.snapIndex) =
      (sf.raw.metadata.index, sf.raw.metadata.index)
    ∧ (sf.raw.metadata.index, sf.raw.metadata.index) ∈
      publishSnapshotFileIndexStates st sf := by
  unfold publishSnapshotFile at h ⊢
  cases hap : w.storageApplySnapshot with
  | some e => simp [hap] at h
  | none =>
    cases hre : w.fsmRestore with
    | some e => simp [hap, hre] at h
    | none => simp [hap, hre, publishSnapshotFileIndexStates]

/-- Counterexample to C1 as stated: installing the snapshot file at index
1 on a freshly booted engine (both indices 0, so the installation guard
index > appliedIndex holds) passes through an intermediate step — after
the snapIndex write, before the appliedIndex write — at which
appliedIndex < snapIndex: the first entry of the index trace is (0, 1). -/
theorem appliedGeSnap_intermediate_cex :
    (publishSnapshotFileIndexStates stZero snap1file).head? = some (0, 1)
    ∧ (publishSnapshotFileIndexStates stZero snap1file).any
        (fun p => decide (p.1 < p.2)) = true
    ∧ stZero.appliedIndex = 0 ∧ stZero.snapIndex = 0 := by
  decide

/-- C1 (amended): applied_index at least snapshot_index is preserved by
every index-updating operation taken as a whole — publishSnapshotFile and
publishSnapshot preserve it on all paths, the synchronous part of
createSnapshot never moves the indices, the createSnapshot background
task preserves it whenever the captured indices are at most the current
applied index, and publishCommitted preserves it whenever every committed
entry's index is at least the snapshot index. (It does not hold at every
intermediate step inside publishSnapshotFile, which writes snapshot_index
before applied_index.) -/
theorem appliedGeSnap_preserved (st : EngineState) (w : World) (sf : SnapFile)
    (snap : Snapshot) (ents : List Entry) (capA capS snapInterval : Nat)
    (hinv : st.snapIndex ≤ st.appliedIndex)
    (hcapA : capA ≤ st.appliedIndex)
    (hcapS : capS ≤ st.appliedIndex)
    (hents : ∀ e ∈ ents, st.snapIndex ≤ e.index) :
    ((publishSnapshotFile st w sf).1.snapIndex ≤
        (publishSnapshotFile st w sf).1.appliedIndex)
    ∧ ((publishSnapshot st w snap).1.snapIndex ≤
        (publishSnapshot st w snap).1.appliedIndex)
    ∧ ((createSnapshot st w).1.snapIndex ≤
        (createSnapshot st w).1.appliedIndex)
    ∧ ((createSnapshotBg st w capA capS snapInterval).1.snapIndex ≤
        (createSnapshotBg st w capA capS snapInterval).1.appliedIndex)
    ∧ ((publishCommitted st w ents).1.snapIndex ≤
        (publishCommitted st w ents).1.appliedIndex) := by
  refine ⟨publishSnapshotFile_inv st w sf hinv, ?_,
    (createSnapshot_indices st w).2 ▸ (createSnapshot_indices st w).1 ▸ hinv,
    createSnapshotBg_inv st w capA capS snapInterval hcapA hcapS,
    publishCommitted_inv st w ents hinv hents⟩
  unfold publishSnapshot
  by_cases hemp : IsEmptySnap snap = true
  · simp [hemp, hinv]
  · simp only [hemp, Bool.false_eq_true, if_false]
    by_cases hle : snap.metadata.index ≤ st.appliedIndex
    · simp [hle, hinv]
    · simp only [hle, if_false]
      cases hss : w.storageSaveSnapshot with
      | some e => simpa using hinv
      | none =>
        cases hsr : w.snapshotterRead snap.metadata.term snap.metadata.index with
        | error e => simpa using hinv
        | ok sf2 => simpa using publishSnapshotFile_inv st w sf2 hinv

/-- Witness for C1 (amended) at concrete inputs: the running state with
applied index 5 and snapshot index 3 through each operation. -/
theorem appliedGeSnap_preserved_witness :
    ((publishSnapshotFile st0 w0 sf9).1.snapIndex ≤
        (publishSnapshotFile st0 w0 sf9).1.appliedIndex)
    ∧ ((publishSnapshot st0 w0 snap9).1.snapIndex ≤
        (publishSnapshot st0 w0 snap9).1.appliedIndex)
    ∧ ((createSnapshot st0 w0).1.snapIndex ≤
        (createSnapshot st0 w0).1.appliedIndex)
    ∧ ((createSnapshotBg st0 w0 5 3 2).1.snapIndex ≤
        (createSnapshotBg st0 w0 5 3 2).1.appliedIndex)
    ∧ ((publishCommitted st0 w0 ents0).1.snapIndex ≤
        (publishCommitted st0 w0 ents0).1.appliedIndex) :=
  appliedGeSnap_preserved st0 w0 sf9 snap9 ents0 5 3 2 (by decide) (by decide)
    (by decide) (by decide)

end RaftEngine

